import Mathlib

/-!
Verification of the persistence and domain-consistency layer of the
veterinary record-keeping system (`sprint8.py`).

The store is a SQLite database driven through Python's `sqlite3` module.
The embedding below models the three tables as lists of rows (list order =
rowid/insertion order, which is the scan order SQLite uses here), the
`AUTOINCREMENT` id generators as counters, and each `DatabaseManager` /
`SistemaVeterinaria` method as a pure function on that state.

Two engine-level facts are built into the embedding because the Python
code relies on them:

* `sqlite3` does NOT enforce foreign keys unless `PRAGMA foreign_keys = ON`
  is executed on the connection; `sprint8.py` never issues that pragma, so
  the `ON DELETE CASCADE` clauses in `create_tables` are inert: deleting a
  parent row leaves the child rows in place.
* the SQL `LIKE` operator used by `get_propietario_by_nombre` treats `%`
  and `_` in the pattern as wildcards and compares ASCII letters
  case-insensitively.
-/

/-- Calendar date, the `datetime.date` value carried by a `Consulta`.
Python restricts years to 1..9999 (`date.MINYEAR`/`MAXYEAR`); that range is
enforced by `validDate`, not by the type. -/
structure Date where
  y : Nat
  m : Nat
  d : Nat
deriving DecidableEq, Repr

/-- Gregorian leap-year rule, as used by `datetime.date` validity. -/
def isLeap (y : Nat) : Bool :=
  (y % 4 == 0 && y % 100 != 0) || y % 400 == 0

/-- Number of days in month `m` of year `y` (`datetime.date` validity). -/
def daysInMonth (y m : Nat) : Nat :=
  if m = 2 then (if isLeap y then 29 else 28)
  else if m = 4 ∨ m = 6 ∨ m = 9 ∨ m = 11 then 30
  else 31

/-- Validity of a calendar date, exactly what `datetime.date(y, m, d)`
accepts. -/
def validDate (dt : Date) : Bool :=
  decide (1 ≤ dt.y) && decide (dt.y ≤ 9999) &&
  decide (1 ≤ dt.m) && decide (dt.m ≤ 12) &&
  decide (1 ≤ dt.d) && decide (dt.d ≤ daysInMonth dt.y dt.m)

/-- Decimal digit character for `n % 10`. -/
def digitChar (n : Nat) : Char :=
  match n % 10 with
  | 0 => '0' | 1 => '1' | 2 => '2' | 3 => '3' | 4 => '4'
  | 5 => '5' | 6 => '6' | 7 => '7' | 8 => '8' | _ => '9'

/-- Decimal digits of a year exactly as `strftime("%Y")` prints it on
CPython/glibc: the plain decimal number with no zero padding, so
`date(42, 5, 1)` formats as `42-05-01` and `date(999, 12, 31)` as
`999-12-31`.  Intended for the year range 1..9999 that `datetime.date`
admits. -/
def yearChars (y : Nat) : List Char :=
  if y < 10 then [digitChar y]
  else if y < 100 then [digitChar (y / 10), digitChar y]
  else if y < 1000 then [digitChar (y / 100), digitChar (y / 10), digitChar y]
  else [digitChar (y / 1000), digitChar (y / 100), digitChar (y / 10), digitChar y]

/-- The storage representation of a visit date: the string written by
`consulta.fecha.strftime("%Y-%m-%d")` in `insert_consulta` and
`update_consulta` — month and day zero-padded to two digits, but the year
printed unpadded, so years below 1000 yield strings (such as `42-05-01`)
that the read-back parse rejects. -/
def Date.toIso (dt : Date) : String :=
  ⟨yearChars dt.y ++
    '-' :: digitChar (dt.m / 10) :: digitChar dt.m ::
    '-' :: digitChar (dt.d / 10) :: digitChar dt.d :: []⟩

/-- The canonical ten-character `YYYY-MM-DD` shape: the only shape
`parseIso` accepts, and the one `Date.toIso` produces exactly when the
year has four digits. -/
def isoCanon (dt : Date) : List Char :=
  [digitChar (dt.y / 1000), digitChar (dt.y / 100), digitChar (dt.y / 10),
   digitChar dt.y, '-', digitChar (dt.m / 10), digitChar dt.m, '-',
   digitChar (dt.d / 10), digitChar dt.d]

/-- Numeric value of a decimal digit character, `none` on non-digits. -/
def charDigit (c : Char) : Option Nat :=
  if 48 ≤ c.toNat ∧ c.toNat ≤ 57 then some (c.toNat - 48) else none

/-- Parse of a stored visit-date string, as performed by
`datetime.strptime(fecha, "%Y-%m-%d")` inside `Consulta.__init__`:
`%Y` demands exactly four digits, so only the canonical zero-padded
ten-character shape is accepted and every string `Date.toIso` writes for a
year below 1000 is rejected (`strptime` raises `ValueError` there).  The
flexibility real `strptime` has on one-digit months/days is irrelevant to
this program, which always writes two-digit months and days. -/
def parseIso (s : String) : Option Date :=
  match s.data with
  | [y1, y2, y3, y4, h1, m1, m2, h2, d1, d2] =>
    if h1 = '-' ∧ h2 = '-' then
      match charDigit y1, charDigit y2, charDigit y3, charDigit y4,
            charDigit m1, charDigit m2, charDigit d1, charDigit d2 with
      | some a, some b, some c, some e, some f, some g, some h, some i =>
        let dt : Date := ⟨1000 * a + 100 * b + 10 * c + e, 10 * f + g, 10 * h + i⟩
        if validDate dt then some dt else none
      | _, _, _, _, _, _, _, _ => none
    else none
  | _ => none

/-- Strict chronological order on dates (year, then month, then day). -/
def Date.lt (a b : Date) : Prop :=
  a.y < b.y ∨ (a.y = b.y ∧ (a.m < b.m ∨ (a.m = b.m ∧ a.d < b.d)))

/-- Chronological order on dates, allowing equality. -/
def Date.le (a b : Date) : Prop :=
  a.y < b.y ∨ (a.y = b.y ∧ (a.m < b.m ∨ (a.m = b.m ∧ a.d ≤ b.d)))

instance (a b : Date) : Decidable (Date.lt a b) := by unfold Date.lt; infer_instance

instance (a b : Date) : Decidable (Date.le a b) := by unfold Date.le; infer_instance

/-- Strict ordering on character lists, mirroring the `memcmp`-based
`BINARY` collation SQLite applies in `ORDER BY c.fecha DESC` (fecha strings
are ASCII, where byte order and codepoint order agree). -/
def chLt : List Char → List Char → Bool
  | _ :: _, [] => false
  | [], [] => false
  | [], _ :: _ => true
  | a :: as, b :: bs => decide (a < b) || (a == b && chLt as bs)

/-- Reflexive companion of `chLt`. -/
def chLe (a b : List Char) : Bool := !(chLt b a)

/-- Lower-cases an ASCII letter, the folding SQLite's default `LIKE`
applies to both operands; other characters are untouched. -/
def foldChar (c : Char) : Char :=
  if 'A' ≤ c ∧ c ≤ 'Z' then Char.ofNat (c.toNat + 32) else c

/-- Fuel-indexed evaluator for SQLite's default `LIKE`; structural in the
fuel so that it reduces inside the kernel.  `sqlLike` supplies enough fuel
for the recursion (which shrinks `pattern.length + string.length` at every
step) never to exhaust it. -/
def sqlLikeF : Nat → List Char → List Char → Bool
  | 0, _, _ => false
  | _ + 1, [], s => s.isEmpty
  | fuel + 1, p :: ps, s =>
    if p = '%' then
      sqlLikeF fuel ps s ||
        (match s with
         | [] => false
         | _ :: t => sqlLikeF fuel (p :: ps) t)
    else
      match s with
      | [] => false
      | c :: t => (if p = '_' then true else foldChar p == foldChar c) && sqlLikeF fuel ps t

/-- SQLite's default `LIKE` operator: `sqlLike pat s` decides
`s LIKE pat`.  In the pattern, `%` matches any character sequence and `_`
any single character; all other characters match case-insensitively on
ASCII letters.  This is the matcher behind
`SELECT ... FROM propietarios WHERE nombre LIKE ?`. -/
def sqlLike (p s : List Char) : Bool :=
  sqlLikeF (p.length + s.length + 1) p s

theorem sqlLikeF_congr : ∀ (f g : Nat) (p s : List Char),
    p.length + s.length < f → p.length + s.length < g →
    sqlLikeF f p s = sqlLikeF g p s := by
  intro f
  induction f with
  | zero => intro g p s hf; omega
  | succ f ih =>
    intro g p s hf hg
    match g with
    | 0 => omega
    | g + 1 =>
      match p with
      | [] => rfl
      | p :: ps =>
        match s with
        | [] =>
          simp only [List.length_cons, List.length_nil] at hf hg
          simp only [sqlLikeF]
          by_cases hp : p = '%'
          · simp only [if_pos hp]
            rw [ih g ps [] (by first | omega | (simp only [List.length_nil, List.length_cons]; omega))
              (by first | omega | (simp only [List.length_nil, List.length_cons]; omega))]
          · simp only [if_neg hp]
        | c :: t =>
          simp only [List.length_cons] at hf hg
          simp only [sqlLikeF]
          by_cases hp : p = '%'
          · simp only [if_pos hp]
            rw [ih g ps (c :: t) (by first | omega | (simp only [List.length_nil, List.length_cons]; omega))
              (by first | omega | (simp only [List.length_nil, List.length_cons]; omega)),
              ih g (p :: ps) t (by first | omega | (simp only [List.length_nil, List.length_cons]; omega))
              (by first | omega | (simp only [List.length_nil, List.length_cons]; omega))]
          · simp only [if_neg hp]
            rw [ih g ps t (by first | omega | (simp only [List.length_nil, List.length_cons]; omega))
              (by first | omega | (simp only [List.length_nil, List.length_cons]; omega))]

theorem sqlLikeF_big (f : Nat) (p s : List Char) (h : p.length + s.length < f) :
    sqlLikeF f p s = sqlLike p s :=
  sqlLikeF_congr f (p.length + s.length + 1) p s h (by omega)

theorem sqlLike_nil (s : List Char) : sqlLike [] s = s.isEmpty := rfl

theorem sqlLike_pct (ps s : List Char) :
    sqlLike ('%' :: ps) s =
      (sqlLike ps s ||
        (match s with
         | [] => false
         | _ :: t => sqlLike ('%' :: ps) t)) := by
  cases s with
  | nil =>
    show sqlLikeF (('%' :: ps).length + List.length [] + 1) ('%' :: ps) [] = _
    rw [sqlLikeF]
    simp only [reduceIte]
    rw [sqlLikeF_big _ ps [] (by first | omega | (simp only [List.length_nil, List.length_cons]; omega))]
  | cons c t =>
    show sqlLikeF (('%' :: ps).length + (c :: t).length + 1) ('%' :: ps) (c :: t) = _
    rw [sqlLikeF]
    simp only [reduceIte]
    rw [sqlLikeF_big _ ps (c :: t) (by first | omega | (simp only [List.length_nil, List.length_cons]; omega)),
      sqlLikeF_big _ ('%' :: ps) t (by first | omega | (simp only [List.length_nil, List.length_cons]; omega))]

theorem sqlLike_cons_nil (p : Char) (ps : List Char) (hp : p ≠ '%') :
    sqlLike (p :: ps) [] = false := by
  show sqlLikeF ((p :: ps).length + List.length [] + 1) (p :: ps) [] = false
  rw [sqlLikeF]
  simp only [if_neg hp]

theorem sqlLike_cons_cons (p : Char) (ps : List Char) (c : Char) (t : List Char)
    (hp : p ≠ '%') :
    sqlLike (p :: ps) (c :: t) =
      ((if p = '_' then true else foldChar p == foldChar c) && sqlLike ps t) := by
  show sqlLikeF ((p :: ps).length + (c :: t).length + 1) (p :: ps) (c :: t) = _
  rw [sqlLikeF]
  simp only [if_neg hp]
  rw [sqlLikeF_big _ ps t (by first | omega | (simp only [List.length_nil, List.length_cons]; omega))]

/-- Row of the `propietarios` table: `id INTEGER PRIMARY KEY AUTOINCREMENT,
nombre TEXT NOT NULL UNIQUE, telefono TEXT, direccion TEXT`. -/
structure PropRow where
  id : Nat
  nombre : String
  telefono : String
  direccion : String
deriving DecidableEq, Repr

/-- Row of the `mascotas` table: `id INTEGER PRIMARY KEY AUTOINCREMENT,
nombre TEXT NOT NULL, especie TEXT, raza TEXT, edad INTEGER,
id_propietario INTEGER` (the foreign key is declared but, with
`PRAGMA foreign_keys` left off, never enforced). -/
structure MascRow where
  id : Nat
  nombre : String
  especie : String
  raza : String
  edad : Int
  id_propietario : Nat
deriving DecidableEq, Repr

/-- Row of the `consultas` table: `id INTEGER PRIMARY KEY AUTOINCREMENT,
fecha TEXT NOT NULL, motivo TEXT, diagnostico TEXT, id_mascota INTEGER`
(foreign key declared but unenforced, as above). -/
structure ConsRow where
  id : Nat
  fecha : String
  motivo : String
  diagnostico : String
  id_mascota : Nat
deriving DecidableEq, Repr

/-- The persistent state: the three tables (in rowid order) plus the
`AUTOINCREMENT` counters that produce the next primary key of each. -/
structure DB where
  propietarios : List PropRow
  mascotas : List MascRow
  consultas : List ConsRow
  nextProp : Nat
  nextMasc : Nat
  nextCons : Nat
deriving DecidableEq, Repr

/-- The freshly created database right after `create_tables`: all three
tables empty, `AUTOINCREMENT` counters at 1. -/
def DB.empty : DB := ⟨[], [], [], 1, 1, 1⟩

/-- `DatabaseManager.insert_propietario`: `INSERT INTO propietarios
(nombre, telefono, direccion) VALUES (?, ?, ?)`.  The `UNIQUE` constraint
on `nombre` (BINARY collation, i.e. exact string equality) makes a
duplicate name raise `sqlite3.IntegrityError`, which the method catches,
returning `None` with no state change; otherwise the row is committed and
the object comes back with `id = cursor.lastrowid`. -/
def insert_propietario (db : DB) (nombre telefono direccion : String) :
    Option PropRow × DB :=
  if db.propietarios.any (fun r => r.nombre == nombre) then (none, db)
  else
    let r : PropRow := ⟨db.nextProp, nombre, telefono, direccion⟩
    (some r, { db with propietarios := db.propietarios ++ [r],
                       nextProp := db.nextProp + 1 })

/-- `DatabaseManager.get_propietario_by_nombre`: `SELECT ... FROM
propietarios WHERE nombre LIKE ?` followed by `fetchone()` — the first row
(in table order) whose stored name `LIKE`-matches the queried pattern. -/
def get_propietario_by_nombre (db : DB) (nombre : String) : Option PropRow :=
  (db.propietarios.filter (fun r => sqlLike nombre.data r.nombre.data)).head?

/-- `DatabaseManager.get_propietario_by_id`: `SELECT ... FROM propietarios
WHERE id = ?`, `fetchone()`. -/
def get_propietario_by_id (db : DB) (pid : Nat) : Option PropRow :=
  (db.propietarios.filter (fun r => r.id == pid)).head?

/-- `DatabaseManager.get_all_propietarios`: `SELECT ... FROM propietarios`. -/
def get_all_propietarios (db : DB) : List PropRow :=
  db.propietarios

/-- Partial-field mapping for an owner update (the `new_data` dict built by
`actualizar_propietario`; its only possible keys are `nombre`, `telefono`,
`direccion`). -/
structure PropUpdate where
  nombre : Option String
  telefono : Option String
  direccion : Option String
deriving DecidableEq, Repr

/-- Emptiness of the mapping (`new_data == {}`). -/
def PropUpdate.isEmpty (u : PropUpdate) : Bool :=
  u.nombre.isNone && u.telefono.isNone && u.direccion.isNone

/-- Effect of `UPDATE propietarios SET <keys> = ? WHERE id = ?` on one
matched row: each supplied field overwrites, the rest stay. -/
def applyPropUpdate (u : PropUpdate) (r : PropRow) : PropRow :=
  { r with nombre := u.nombre.getD r.nombre,
           telefono := u.telefono.getD r.telefono,
           direccion := u.direccion.getD r.direccion }

/-- Condition under which `UPDATE propietarios SET ... WHERE id = ?`
violates the `UNIQUE` constraint on `nombre`: a row with the given id is
being renamed to a `nombre` some other row already holds. -/
def propNameConflict (db : DB) (pid : Nat) (u : PropUpdate) : Bool :=
  match u.nombre with
  | some n =>
    db.propietarios.any (fun r => r.id == pid) &&
      db.propietarios.any (fun r => r.id != pid && r.nombre == n)
  | none => false

/-- `DatabaseManager.update_propietario`.  With an empty dict the built SQL
is `UPDATE propietarios SET  WHERE id = ?`, a syntax error: the raised
`sqlite3.OperationalError` is caught and `False` returned with no change.
Renaming onto a name held by a different row violates the `UNIQUE`
constraint: `sqlite3.IntegrityError`, same catch, `False`, no change.
Otherwise rows with the given id are updated and `cursor.rowcount > 0` is
returned. -/
def update_propietario (db : DB) (pid : Nat) (u : PropUpdate) : Bool × DB :=
  if u.isEmpty then (false, db)
  else if propNameConflict db pid u then (false, db)
  else
    (db.propietarios.any (fun r => r.id == pid),
     { db with propietarios :=
         db.propietarios.map (fun r => if r.id == pid then applyPropUpdate u r else r) })

/-- `DatabaseManager.delete_propietario`: `DELETE FROM propietarios WHERE
id = ?`, returning `cursor.rowcount > 0`.  Since the connection never runs
`PRAGMA foreign_keys = ON`, the `ON DELETE CASCADE` clauses of `mascotas`
and `consultas` are not enforced: only owner rows are removed and the
dependent pets and visits stay behind. -/
def delete_propietario (db : DB) (pid : Nat) : Bool × DB :=
  (db.propietarios.any (fun r => r.id == pid),
   { db with propietarios := db.propietarios.filter (fun r => !(r.id == pid)) })

/-- `DatabaseManager.insert_mascota`: `INSERT INTO mascotas ...`.  No
constraint can fire (the foreign key is unenforced and `edad` is a plain
`INTEGER` column), so the insert always commits with a fresh id; the
Python wrapper only returns `None` on an engine fault, modeled separately
by `insert_propietarioF`-style fault variants. -/
def insert_mascota (db : DB) (nombre especie raza : String) (edad : Int)
    (idProp : Nat) : MascRow × DB :=
  let r : MascRow := ⟨db.nextMasc, nombre, especie, raza, edad, idProp⟩
  (r, { db with mascotas := db.mascotas ++ [r], nextMasc := db.nextMasc + 1 })

/-- A `Mascota` object as materialized by the pet read queries, whose
`JOIN propietarios p ON m.id_propietario = p.id` also carries
`p.nombre`. -/
structure MascOut where
  id : Nat
  nombre : String
  especie : String
  raza : String
  edad : Int
  propietario_id : Nat
  propietario_nombre : String
deriving DecidableEq, Repr

/-- The joined row set `FROM mascotas m JOIN propietarios p ON
m.id_propietario = p.id`, in nested-loop scan order. -/
def mascotaJoinRows (db : DB) : List (MascRow × PropRow) :=
  db.mascotas.flatMap (fun m =>
    (db.propietarios.filter (fun p => p.id == m.id_propietario)).map (fun p => (m, p)))

/-- Builds the `Mascota` object from a joined row. -/
def mkMascOut (mp : MascRow × PropRow) : MascOut :=
  ⟨mp.1.id, mp.1.nombre, mp.1.especie, mp.1.raza, mp.1.edad,
   mp.1.id_propietario, mp.2.nombre⟩

/-- `DatabaseManager.get_all_mascotas`: the inner join of pets with their
owners — a pet row whose `id_propietario` matches no owner produces no
output row. -/
def get_all_mascotas (db : DB) : List MascOut :=
  (mascotaJoinRows db).map mkMascOut

/-- `DatabaseManager.get_mascota_by_id`: the same join restricted by
`WHERE m.id = ?`, `fetchone()`. -/
def get_mascota_by_id (db : DB) (mid : Nat) : Option MascOut :=
  (((mascotaJoinRows db).filter (fun mp => mp.1.id == mid)).map mkMascOut).head?

/-- Partial-field mapping for a pet update (the `new_data` dict built by
`actualizar_mascota`; possible keys: `nombre`, `especie`, `raza`, `edad`,
`id_propietario`). -/
structure MascUpdate where
  nombre : Option String
  especie : Option String
  raza : Option String
  edad : Option Int
  id_propietario : Option Nat
deriving DecidableEq, Repr

/-- Emptiness of the mapping (`new_data == {}`). -/
def MascUpdate.isEmpty (u : MascUpdate) : Bool :=
  u.nombre.isNone && u.especie.isNone && u.raza.isNone &&
    u.edad.isNone && u.id_propietario.isNone

/-- Effect of `UPDATE mascotas SET <keys> = ? WHERE id = ?` on one matched
row. -/
def applyMascUpdate (u : MascUpdate) (r : MascRow) : MascRow :=
  { r with nombre := u.nombre.getD r.nombre,
           especie := u.especie.getD r.especie,
           raza := u.raza.getD r.raza,
           edad := u.edad.getD r.edad,
           id_propietario := u.id_propietario.getD r.id_propietario }

/-- `DatabaseManager.update_mascota`.  Empty dict → SQL syntax error,
caught, `False` with no change; otherwise the matched rows are updated
(no constraint can fire on `mascotas`) and `rowcount > 0` is returned. -/
def update_mascota (db : DB) (mid : Nat) (u : MascUpdate) : Bool × DB :=
  if u.isEmpty then (false, db)
  else
    (db.mascotas.any (fun r => r.id == mid),
     { db with mascotas :=
         db.mascotas.map (fun r => if r.id == mid then applyMascUpdate u r else r) })

/-- `DatabaseManager.delete_mascota`: `DELETE FROM mascotas WHERE id = ?`;
as with owners, the declared cascade onto `consultas` is not enforced. -/
def delete_mascota (db : DB) (mid : Nat) : Bool × DB :=
  (db.mascotas.any (fun r => r.id == mid),
   { db with mascotas := db.mascotas.filter (fun r => !(r.id == mid)) })

/-- `DatabaseManager.insert_consulta`: `INSERT INTO consultas (fecha, ...)
VALUES (?, ...)` with `fecha = consulta.fecha.strftime("%Y-%m-%d")`; the
row always commits (no enforceable constraint) under a fresh id. -/
def insert_consulta (db : DB) (fecha : Date) (motivo diagnostico : String)
    (idMasc : Nat) : ConsRow × DB :=
  let r : ConsRow := ⟨db.nextCons, fecha.toIso, motivo, diagnostico, idMasc⟩
  (r, { db with consultas := db.consultas ++ [r], nextCons := db.nextCons + 1 })

/-- A `Consulta` object as materialized by the visit read queries, which
join `mascotas` to carry the pet's name.  The `fecha` component is kept in
its stored string form; `Consulta.__init__` turns it back into the date
`parseIso` yields. -/
structure ConsOut where
  id : Nat
  fecha : Date
  motivo : String
  diagnostico : String
  mascota_id : Nat
  mascota_nombre : String
deriving DecidableEq, Repr

/-- The joined row set `FROM consultas c JOIN mascotas m ON c.id_mascota =
m.id`, in nested-loop scan order. -/
def consultaJoinRows (db : DB) : List (ConsRow × MascRow) :=
  db.consultas.flatMap (fun c =>
    (db.mascotas.filter (fun m => m.id == c.id_mascota)).map (fun m => (c, m)))

/-- One step of the `ORDER BY c.fecha DESC` sort: place `x` in a
fecha-descending row list, in front of the first row whose fecha does not
exceed `x`'s. -/
def insertFechaDesc (x : ConsRow × MascRow) :
    List (ConsRow × MascRow) → List (ConsRow × MascRow)
  | [] => [x]
  | y :: ys =>
    if chLe y.1.fecha.data x.1.fecha.data then x :: y :: ys
    else y :: insertFechaDesc x ys

/-- The `ORDER BY c.fecha DESC` sort of the joined rows (`BINARY`
collation on the stored text, i.e. `chLe` on the character lists). -/
def sortFechaDesc : List (ConsRow × MascRow) → List (ConsRow × MascRow)
  | [] => []
  | x :: xs => insertFechaDesc x (sortFechaDesc xs)

/-- Construction of one `Consulta` object from a joined row, as
`Consulta.__init__` performs it: the stored `fecha` text is parsed with
`strptime("%Y-%m-%d")`; a string that does not parse (such as the
unpadded-year strings `Date.toIso` writes for years below 1000) raises a
`ValueError`, modeled as `none`. -/
def consOutRow (cm : ConsRow × MascRow) : Option ConsOut :=
  (parseIso cm.1.fecha).map (fun dt =>
    ⟨cm.1.id, dt, cm.1.motivo, cm.1.diagnostico, cm.1.id_mascota, cm.2.nombre⟩)

/-- Construction of the `Consulta` objects for a row list, left to right;
the first row whose `fecha` does not parse raises the `ValueError` —
uncaught, since the method handles only `sqlite3.Error` — modeled as
`Except.error ()`. -/
def consOutList : List (ConsRow × MascRow) → Except Unit (List ConsOut)
  | [] => .ok []
  | cm :: rest =>
    match consOutRow cm with
    | none => .error ()
    | some out =>
      match consOutList rest with
      | .ok l => .ok (out :: l)
      | .error e => .error e

/-- `DatabaseManager.get_consultas_by_mascota_id`: the visit/pet join
restricted by `WHERE c.id_mascota = ?` in `ORDER BY c.fecha DESC` order,
materialized into `Consulta` objects; `Except.error ()` is the uncaught
`ValueError` raised while parsing a stored `fecha` the `strptime` format
rejects. -/
def get_consultas_by_mascota_id (db : DB) (mid : Nat) :
    Except Unit (List ConsOut) :=
  consOutList (sortFechaDesc
    ((db.consultas.filter (fun c => c.id_mascota == mid)).flatMap (fun c =>
      (db.mascotas.filter (fun m => m.id == c.id_mascota)).map (fun m => (c, m)))))

/-- `DatabaseManager.get_consulta_by_id`: the visit/pet join restricted by
`WHERE c.id = ?`, `fetchone()`; `.ok none` is the no-row path, and
`Except.error ()` the uncaught `ValueError` from parsing an unreadable
stored `fecha`. -/
def get_consulta_by_id (db : DB) (cid : Nat) : Except Unit (Option ConsOut) :=
  match ((consultaJoinRows db).filter (fun cm => cm.1.id == cid)).head? with
  | none => .ok none
  | some cm =>
    match consOutRow cm with
    | some out => .ok (some out)
    | none => .error ()

/-- Partial-field mapping for a visit update (the `new_data` dict built by
`actualizar_consulta`; possible keys: `fecha`, `motivo`, `diagnostico`).
The workflow always supplies `fecha` as a `datetime.date`, which
`update_consulta` converts with `strftime("%Y-%m-%d")` before writing. -/
structure ConsUpdate where
  fecha : Option Date
  motivo : Option String
  diagnostico : Option String
deriving DecidableEq, Repr

/-- Emptiness of the mapping (`new_data == {}`). -/
def ConsUpdate.isEmpty (u : ConsUpdate) : Bool :=
  u.fecha.isNone && u.motivo.isNone && u.diagnostico.isNone

/-- Effect of `UPDATE consultas SET <keys> = ? WHERE id = ?` on one matched
row (dates stored via `Date.toIso`). -/
def applyConsUpdate (u : ConsUpdate) (r : ConsRow) : ConsRow :=
  { r with fecha := (u.fecha.map Date.toIso).getD r.fecha,
           motivo := u.motivo.getD r.motivo,
           diagnostico := u.diagnostico.getD r.diagnostico }

/-- `DatabaseManager.update_consulta`: empty dict → caught SQL error,
`False`, no change; otherwise matched rows updated, `rowcount > 0`. -/
def update_consulta (db : DB) (cid : Nat) (u : ConsUpdate) : Bool × DB :=
  if u.isEmpty then (false, db)
  else
    (db.consultas.any (fun r => r.id == cid),
     { db with consultas :=
         db.consultas.map (fun r => if r.id == cid then applyConsUpdate u r else r) })

/-- `DatabaseManager.delete_consulta`: `DELETE FROM consultas WHERE id = ?`,
returning `rowcount > 0`. -/
def delete_consulta (db : DB) (cid : Nat) : Bool × DB :=
  (db.consultas.any (fun r => r.id == cid),
   { db with consultas := db.consultas.filter (fun r => !(r.id == cid)) })

/-- Turns the `input(...).strip()` convention of the update workflows into
a partial field: a blank entry means "keep the current value". -/
def strOpt (s : String) : Option String :=
  if s = "" then none else some s

/-- Interactive input consumed by `SistemaVeterinaria.registrar_mascota`.
`edadInputs` is the stream of integers the user types at the age prompt
(the `while edad_mascota < 0` loop rereads until one is non-negative);
the owner-side fields feed `_get_propietario_or_create`. -/
structure RegMascInput where
  nombre : String
  especie : String
  raza : String
  edadInputs : List Int
  ownerName : String
  createConfirm : Bool
  nuevoNombre : String
  nuevoTel : String
  nuevoDir : String
deriving Repr

/-- `SistemaVeterinaria._get_propietario_or_create`: look the owner up by
name; if absent and the user confirms, re-check the (possibly corrected)
new name and only then insert.  Returns the owner to attach the pet to,
or `none` when the user declines or the insert fails. -/
def getPropietarioOrCreate (db : DB) (inp : RegMascInput) : Option PropRow × DB :=
  match get_propietario_by_nombre db inp.ownerName with
  | some p => (some p, db)
  | none =>
    if inp.createConfirm then
      match get_propietario_by_nombre db inp.nuevoNombre with
      | some p => (some p, db)
      | none => insert_propietario db inp.nuevoNombre inp.nuevoTel inp.nuevoDir
    else (none, db)

/-- `SistemaVeterinaria.registrar_mascota`: the age loop accepts the first
non-negative integer typed (with no non-negative entry the loop never
exits, so no state change happens); then the owner is resolved or created,
and only on success is the pet inserted. -/
def registrar_mascota (db : DB) (inp : RegMascInput) : DB :=
  match inp.edadInputs.find? (fun e => decide (0 ≤ e)) with
  | none => db
  | some edad =>
    match getPropietarioOrCreate db inp with
    | (none, db1) => db1
    | (some p, db1) => (insert_mascota db1 inp.nombre inp.especie inp.raza edad p.id).2

/-- `SistemaVeterinaria.registrar_consulta`: the pet is located through
`get_mascota_by_id` (the owner join); if absent the workflow aborts,
otherwise the visit is inserted.  `fecha` is the value of
`UIUtils.get_date_input`, a `datetime.date` parsed from `dd-mm-aaaa`. -/
def registrar_consulta (db : DB) (mid : Nat) (fecha : Date)
    (motivo diagnostico : String) : DB :=
  match get_mascota_by_id db mid with
  | none => db
  | some m => (insert_consulta db fecha motivo diagnostico m.id).2

/-- Interactive input consumed by `SistemaVeterinaria.actualizar_propietario`:
the id typed at the prompt and the three replacement fields (blank = keep). -/
structure ActPropInput where
  propId : Nat
  nombre : String
  telefono : String
  direccion : String
deriving Repr

/-- Tail of `actualizar_propietario` once the rename check has passed:
collect the non-blank fields and, if any, call the store update. -/
def actPropFinish (db : DB) (pid : Nat) (nom : Option String)
    (tel dir : String) : DB :=
  let u : PropUpdate := ⟨nom, strOpt tel, strOpt dir⟩
  if u.isEmpty then db else (update_propietario db pid u).2

/-- `SistemaVeterinaria.actualizar_propietario`: locate the owner by id;
when a new name is supplied, look it up with `get_propietario_by_nombre`
and abort the whole workflow if it belongs to a different owner id;
otherwise apply the non-blank fields through `update_propietario`. -/
def actualizar_propietario (db : DB) (inp : ActPropInput) : DB :=
  match get_propietario_by_id db inp.propId with
  | none => db
  | some prop =>
    if inp.nombre ≠ "" then
      match get_propietario_by_nombre db inp.nombre with
      | some ex =>
        if ex.id ≠ prop.id then db
        else actPropFinish db prop.id (some inp.nombre) inp.telefono inp.direccion
      | none => actPropFinish db prop.id (some inp.nombre) inp.telefono inp.direccion
    else actPropFinish db prop.id none inp.telefono inp.direccion

/-- Interactive input consumed by `SistemaVeterinaria.actualizar_mascota`.
`edadInput = some e` models an integer age entry (`int(edad_str)`
succeeded); `none` models a blank or unparseable entry, which keeps the
current age, as does a negative entry (the `if edad < 0: raise` branch). -/
structure ActMascInput where
  mascId : Nat
  nombre : String
  especie : String
  raza : String
  edadInput : Option Int
  changeOwner : Bool
  newOwnerName : String
deriving Repr

/-- The `edad` entry of the pet-update mapping: kept only when the typed
entry parsed as a non-negative integer (`int(edad_str)` succeeded and the
`if edad < 0: raise` guard did not fire). -/
def actMascEdad (inp : ActMascInput) : Option Int :=
  match inp.edadInput with
  | some e => if e < 0 then none else some e
  | none => none

/-- The `new_data` mapping built by `actualizar_mascota`: non-blank text
fields, the validated age, and — when the user asked to re-home the pet —
the id of the new owner located by name (reassignment skipped when that
lookup fails). -/
def actMascUpdate (db : DB) (inp : ActMascInput) : MascUpdate :=
  let u0 : MascUpdate :=
    ⟨strOpt inp.nombre, strOpt inp.especie, strOpt inp.raza, actMascEdad inp, none⟩
  if inp.changeOwner then
    match get_propietario_by_nombre db inp.newOwnerName with
    | some p => { u0 with id_propietario := some p.id }
    | none => u0
  else u0

/-- `SistemaVeterinaria.actualizar_mascota`: locate the pet via the owner
join; gather the update mapping; update unless the mapping is empty. -/
def actualizar_mascota (db : DB) (inp : ActMascInput) : DB :=
  match get_mascota_by_id db inp.mascId with
  | none => db
  | some masc =>
    let u := actMascUpdate db inp
    if u.isEmpty then db else (update_mascota db masc.id u).2

/-- Interactive input consumed by `SistemaVeterinaria.actualizar_consulta`:
`fecha = none` models a blank or ill-formatted date entry (kept current). -/
structure ActConsInput where
  consId : Nat
  fecha : Option Date
  motivo : String
  diagnostico : String
deriving Repr

/-- `SistemaVeterinaria.actualizar_consulta`: locate the visit via the pet
join, gather non-blank fields, update.  When the lookup raises the
uncaught `ValueError` (unreadable stored `fecha`), the program aborts to
the top-level handler with no mutation, modeled as returning the state
unchanged. -/
def actualizar_consulta (db : DB) (inp : ActConsInput) : DB :=
  match get_consulta_by_id db inp.consId with
  | .error _ => db
  | .ok none => db
  | .ok (some cons) =>
    let u : ConsUpdate := ⟨inp.fecha, strOpt inp.motivo, strOpt inp.diagnostico⟩
    if u.isEmpty then db else (update_consulta db cons.id u).2

/-- `SistemaVeterinaria.eliminar_propietario`: locate by id, ask for
confirmation, and only then call the store delete. -/
def eliminar_propietario (db : DB) (pid : Nat) (confirm : Bool) : DB :=
  match get_propietario_by_id db pid with
  | none => db
  | some prop => if confirm then (delete_propietario db prop.id).2 else db

/-- `SistemaVeterinaria.eliminar_mascota`: locate via the owner join,
confirm, delete. -/
def eliminar_mascota (db : DB) (mid : Nat) (confirm : Bool) : DB :=
  match get_mascota_by_id db mid with
  | none => db
  | some masc => if confirm then (delete_mascota db masc.id).2 else db

/-- `SistemaVeterinaria.eliminar_consulta`: locate via the pet join,
confirm, delete; an uncaught `ValueError` in the lookup aborts with no
mutation. -/
def eliminar_consulta (db : DB) (cid : Nat) (confirm : Bool) : DB :=
  match get_consulta_by_id db cid with
  | .error _ => db
  | .ok none => db
  | .ok (some cons) => if confirm then (delete_consulta db cons.id).2 else db

/-- Database states reachable through the menu of `main`: the fresh
database of `create_tables`, extended by any sequence of the mutating
workflows of `SistemaVeterinaria` (the listing workflows read only). -/
inductive Reachable : DB → Prop where
  | init : Reachable DB.empty
  | regMasc {db} (inp : RegMascInput) :
      Reachable db → Reachable (registrar_mascota db inp)
  | regCons {db} (mid : Nat) (fecha : Date) (motivo diagnostico : String) :
      Reachable db → Reachable (registrar_consulta db mid fecha motivo diagnostico)
  | actProp {db} (inp : ActPropInput) :
      Reachable db → Reachable (actualizar_propietario db inp)
  | actMasc {db} (inp : ActMascInput) :
      Reachable db → Reachable (actualizar_mascota db inp)
  | actCons {db} (inp : ActConsInput) :
      Reachable db → Reachable (actualizar_consulta db inp)
  | delProp {db} (pid : Nat) (confirm : Bool) :
      Reachable db → Reachable (eliminar_propietario db pid confirm)
  | delMasc {db} (mid : Nat) (confirm : Bool) :
      Reachable db → Reachable (eliminar_mascota db mid confirm)
  | delCons {db} (cid : Nat) (confirm : Bool) :
      Reachable db → Reachable (eliminar_consulta db cid confirm)

/-- Return value of `insert_propietario` with the `except sqlite3.Error`
path made explicit: `fault` is true when the underlying engine raises, and
the handler then returns `None` — the same sentinel a duplicate name
produces. -/
def insert_propietarioF (fault : Bool) (db : DB)
    (nombre telefono direccion : String) : Option PropRow :=
  if fault then none else (insert_propietario db nombre telefono direccion).1

/-- Return value of `update_mascota` with the engine-fault path explicit:
on `sqlite3.Error` the handler returns `False`, the same sentinel as a
missing id. -/
def update_mascotaF (fault : Bool) (db : DB) (mid : Nat) (u : MascUpdate) : Bool :=
  if fault then false else (update_mascota db mid u).1

/-- Return value of `get_consultas_by_mascota_id` with the engine-fault
path explicit: on `sqlite3.Error` the handler returns `[]`, the same
sentinel as a pet without visits.  (`ValueError` from date parsing is not
a `sqlite3.Error` and stays uncaught.) -/
def get_consultas_by_mascota_idF (fault : Bool) (db : DB) (mid : Nat) :
    Except Unit (List ConsOut) :=
  if fault then .ok [] else get_consultas_by_mascota_id db mid

/-- Return value of `delete_consulta` with the engine-fault path explicit:
on `sqlite3.Error` the handler returns `False`, the same sentinel as a
missing id. -/
def delete_consultaF (fault : Bool) (db : DB) (cid : Nat) : Bool :=
  if fault then false else (delete_consulta db cid).1

theorem daysInMonth_le (y m : Nat) : daysInMonth y m ≤ 31 := by
  unfold daysInMonth
  split
  · split <;> omega
  · split <;> omega

theorem digitChar_lt_iff (a b : Nat) : digitChar a < digitChar b ↔ a % 10 < b % 10 := by
  have ha : a % 10 < 10 := Nat.mod_lt _ (by omega)
  have hb : b % 10 < 10 := Nat.mod_lt _ (by omega)
  unfold digitChar
  generalize a % 10 = x at ha ⊢
  generalize b % 10 = y at hb ⊢
  interval_cases x <;> interval_cases y <;> decide

theorem digitChar_eq_iff (a b : Nat) : digitChar a = digitChar b ↔ a % 10 = b % 10 := by
  have ha : a % 10 < 10 := Nat.mod_lt _ (by omega)
  have hb : b % 10 < 10 := Nat.mod_lt _ (by omega)
  unfold digitChar
  generalize a % 10 = x at ha ⊢
  generalize b % 10 = y at hb ⊢
  interval_cases x <;> interval_cases y <;> decide

theorem digitChar_toNat (a : Nat) : (digitChar a).toNat = 48 + a % 10 := by
  have ha : a % 10 < 10 := Nat.mod_lt _ (by omega)
  unfold digitChar
  generalize a % 10 = x at ha ⊢
  interval_cases x <;> decide

theorem validDate_bounds (dt : Date) (h : validDate dt = true) :
    1 ≤ dt.y ∧ dt.y ≤ 9999 ∧ 1 ≤ dt.m ∧ dt.m ≤ 12 ∧ 1 ≤ dt.d ∧ dt.d ≤ 31 := by
  simp only [validDate, Bool.and_eq_true, decide_eq_true_eq] at h
  have := daysInMonth_le dt.y dt.m
  omega

theorem digits2_lex (x y : Nat) (hx : x ≤ 99) (hy : y ≤ 99) (P : Prop) :
    (x / 10 % 10 < y / 10 % 10 ∨
      (x / 10 % 10 = y / 10 % 10 ∧ (x % 10 < y % 10 ∨ (x % 10 = y % 10 ∧ P))))
      ↔ (x < y ∨ (x = y ∧ P)) := by
  by_cases hP : P <;> simp only [hP, and_true, and_false, or_false] <;> omega

theorem digits4_lex (x y : Nat) (hx : x ≤ 9999) (hy : y ≤ 9999) (P : Prop) :
    (x / 1000 % 10 < y / 1000 % 10 ∨
      (x / 1000 % 10 = y / 1000 % 10 ∧
        (x / 100 % 10 < y / 100 % 10 ∨
          (x / 100 % 10 = y / 100 % 10 ∧
            (x / 10 % 10 < y / 10 % 10 ∨
              (x / 10 % 10 = y / 10 % 10 ∧ (x % 10 < y % 10 ∨ (x % 10 = y % 10 ∧ P))))))))
      ↔ (x < y ∨ (x = y ∧ P)) := by
  have a1 : x / 100 / 10 = x / 1000 := by omega
  have a2 : y / 100 / 10 = y / 1000 := by omega
  have a3 : x % 100 / 10 = x / 10 % 10 := by omega
  have a4 : y % 100 / 10 = y / 10 % 10 := by omega
  have e1 : x / 1000 % 10 = x / 100 / 10 % 10 := by rw [a1]
  have e2 : y / 1000 % 10 = y / 100 / 10 % 10 := by rw [a2]
  have e3 : x / 10 % 10 = x % 100 / 10 % 10 := by rw [a3]; omega
  have e4 : y / 10 % 10 = y % 100 / 10 % 10 := by rw [a4]; omega
  have e5 : x % 10 = x % 100 % 10 := by omega
  have e6 : y % 10 = y % 100 % 10 := by omega
  rw [e1, e2, e3, e4, e5, e6]
  rw [digits2_lex (x % 100) (y % 100) (by omega) (by omega) P]
  rw [digits2_lex (x / 100) (y / 100) (by omega) (by omega)
    (x % 100 < y % 100 ∨ (x % 100 = y % 100 ∧ P))]
  by_cases hP : P <;> simp only [hP, and_true, and_false, or_false] <;> omega

theorem chLt_isoCanon (d1 d2 : Date) (h1 : validDate d1 = true) (h2 : validDate d2 = true) :
    (chLt (isoCanon d1) (isoCanon d2) = true) ↔ Date.lt d1 d2 := by
  obtain ⟨b1a, b1b, b1c, b1d, b1e, b1f⟩ := validDate_bounds d1 h1
  obtain ⟨b2a, b2b, b2c, b2d, b2e, b2f⟩ := validDate_bounds d2 h2
  obtain ⟨y1, m1, dd1⟩ := d1
  obtain ⟨y2, m2, dd2⟩ := d2
  simp only at b1a b1b b1c b1d b1e b1f b2a b2b b2c b2d b2e b2f
  simp only [isoCanon, Date.lt, chLt, Bool.or_eq_true, Bool.and_eq_true,
    decide_eq_true_eq, beq_iff_eq, digitChar_lt_iff, digitChar_eq_iff,
    lt_self_iff_false, false_or, true_and, eq_self_iff_true]
  rw [digits2_lex dd1 dd2 (by omega) (by omega) (false = true)]
  rw [digits2_lex m1 m2 (by omega) (by omega)
    (dd1 < dd2 ∨ (dd1 = dd2 ∧ false = true))]
  rw [digits4_lex y1 y2 (by omega) (by omega)
    (m1 < m2 ∨ (m1 = m2 ∧ (dd1 < dd2 ∨ (dd1 = dd2 ∧ false = true))))]
  simp only [Bool.false_eq_true, and_false, or_false]

theorem date_not_lt (a b : Date) : ¬ Date.lt a b ↔ Date.le b a := by
  unfold Date.lt Date.le
  omega

theorem chLe_isoCanon (d1 d2 : Date) (h1 : validDate d1 = true) (h2 : validDate d2 = true) :
    (chLe (isoCanon d1) (isoCanon d2) = true) ↔ Date.le d1 d2 := by
  unfold chLe
  rw [Bool.not_eq_true']
  rw [← Bool.not_eq_true (chLt (isoCanon d2) (isoCanon d1))]
  rw [chLt_isoCanon d2 d1 h2 h1, date_not_lt]

theorem charDigit_digitChar (a : Nat) : charDigit (digitChar a) = some (a % 10) := by
  have ha : a % 10 < 10 := Nat.mod_lt _ (by omega)
  unfold charDigit
  rw [digitChar_toNat]
  rw [if_pos (by omega)]
  congr 1
  omega

theorem toIso_data_of_bigYear (dt : Date) (h4 : 1000 ≤ dt.y) :
    (Date.toIso dt).data = isoCanon dt := by
  unfold Date.toIso yearChars isoCanon
  rw [if_neg (by omega), if_neg (by omega), if_neg (by omega)]
  rfl

theorem parseIso_toIso (dt : Date) (h : validDate dt = true) (h4 : 1000 ≤ dt.y) :
    parseIso dt.toIso = some dt := by
  obtain ⟨ba, bb, bc, bd, be, bf⟩ := validDate_bounds dt h
  have hdata := toIso_data_of_bigYear dt h4
  obtain ⟨y, m, d⟩ := dt
  simp only at ba bb bc bd be bf
  simp only [parseIso, hdata, isoCanon, charDigit_digitChar]
  rw [if_pos (by simp)]
  have hy : 1000 * (y / 1000 % 10) + 100 * (y / 100 % 10) + 10 * (y / 10 % 10) + y % 10 = y := by
    omega
  have hm : 10 * (m / 10 % 10) + m % 10 = m := by omega
  have hd : 10 * (d / 10 % 10) + d % 10 = d := by omega
  simp only [hy, hm, hd]
  rw [if_pos h]

theorem chLt_asymm : ∀ (a b : List Char), chLt a b = true → chLt b a = true → False := by
  intro a
  induction a with
  | nil =>
    intro b h1 h2
    cases b with
    | nil => simp [chLt] at h1
    | cons y ys => simp [chLt] at h2
  | cons x xs ih =>
    intro b h1 h2
    cases b with
    | nil => simp [chLt] at h1
    | cons y ys =>
      simp only [chLt, Bool.or_eq_true, decide_eq_true_eq, Bool.and_eq_true,
        beq_iff_eq] at h1 h2
      rcases h1 with h1 | ⟨h1e, h1r⟩
      · rcases h2 with h2 | ⟨h2e, h2r⟩
        · exact absurd h2 (lt_asymm h1)
        · rw [h2e] at h1
          exact lt_irrefl x h1
      · rcases h2 with h2 | ⟨h2e, h2r⟩
        · rw [h1e] at h2
          exact lt_irrefl y h2
        · exact ih ys h1r h2r

theorem chLe_total (a b : List Char) : chLe a b = true ∨ chLe b a = true := by
  by_cases h : chLt b a = true
  · right
    unfold chLe
    by_cases h2 : chLt a b = true
    · exact absurd h2 (fun hh => chLt_asymm b a h hh)
    · simp [Bool.not_eq_true] at h2
      simp [h2]
  · left
    simp [Bool.not_eq_true] at h
    simp [chLe, h]

theorem chain_insertFechaDesc (x : ConsRow × MascRow) :
    ∀ (l : List (ConsRow × MascRow)),
      List.Chain' (fun a b => chLe b.1.fecha.data a.1.fecha.data = true) l →
      List.Chain' (fun a b => chLe b.1.fecha.data a.1.fecha.data = true)
        (insertFechaDesc x l) := by
  intro l
  induction l with
  | nil =>
    intro _
    simp [insertFechaDesc]
  | cons y ys ih =>
    intro h
    simp only [insertFechaDesc]
    split
    · rename_i hc
      exact List.chain'_cons.mpr ⟨hc, h⟩
    · rename_i hc
      have hyx : chLe x.1.fecha.data y.1.fecha.data = true := by
        rcases chLe_total y.1.fecha.data x.1.fecha.data with h1 | h1
        · exact absurd h1 hc
        · exact h1
      have h2 := ih (List.Chain'.tail h)
      cases ys with
      | nil =>
        simp only [insertFechaDesc] at h2 ⊢
        exact List.chain'_cons.mpr ⟨hyx, h2⟩
      | cons w ws =>
        simp only [insertFechaDesc] at h2 ⊢
        split at h2
        · rename_i hcw
          split
          · exact List.chain'_cons.mpr ⟨hyx, h2⟩
          · rename_i hq
            exact absurd hcw hq
        · rename_i hcw
          split
          · rename_i hq
            exact absurd hq hcw
          · have hyw : chLe w.1.fecha.data y.1.fecha.data = true :=
              (List.chain'_cons.mp h).1
            exact List.chain'_cons.mpr ⟨hyw, h2⟩

theorem chain_sortFechaDesc (l : List (ConsRow × MascRow)) :
    List.Chain' (fun a b => chLe b.1.fecha.data a.1.fecha.data = true)
      (sortFechaDesc l) := by
  induction l with
  | nil => simp [sortFechaDesc]
  | cons x xs ih => exact chain_insertFechaDesc x (sortFechaDesc xs) ih

theorem parseIso_validDate (s : String) (dt : Date) (h : parseIso s = some dt) :
    validDate dt = true := by
  unfold parseIso at h
  repeat' split at h
  all_goals try (exfalso; simp_all; done)
  dsimp only at h
  split at h
  · simp only [Option.some.injEq] at h
    rw [← h]
    assumption
  · simp at h

theorem charDigit_bounds (c : Char) (a : Nat) (h : charDigit c = some a) :
    a ≤ 9 ∧ c.toNat = 48 + a := by
  unfold charDigit at h
  split at h
  · rename_i hb
    simp only [Option.some.injEq] at h
    omega
  · simp at h

theorem charDigit_eq_digitChar (c : Char) (a : Nat) (h : charDigit c = some a) :
    c = digitChar a := by
  obtain ⟨ha, hc⟩ := charDigit_bounds c a h
  have h2 := Char.ofNat_toNat c
  rw [hc] at h2
  rw [← h2]
  interval_cases a <;> decide

theorem parseIso_shape (s : String) (dt : Date) (h : parseIso s = some dt) :
    s.data = isoCanon dt := by
  unfold parseIso at h
  split at h
  · rename_i y1 y2 y3 y4 h1c m1 m2 h2c d1 d2 heq
    split at h
    · rename_i hdash
      split at h
      · rename_i a b c e f g hh i ha hb hc he hf hg hhh hi
        dsimp only at h
        split at h
        · rename_i hv
          simp only [Option.some.injEq] at h
          obtain ⟨ba1, hca⟩ := charDigit_bounds _ _ ha
          obtain ⟨bb1, hcb⟩ := charDigit_bounds _ _ hb
          obtain ⟨bc1, hcc⟩ := charDigit_bounds _ _ hc
          obtain ⟨be1, hce⟩ := charDigit_bounds _ _ he
          obtain ⟨bf1, hcf⟩ := charDigit_bounds _ _ hf
          obtain ⟨bg1, hcg⟩ := charDigit_bounds _ _ hg
          obtain ⟨bh1, hch⟩ := charDigit_bounds _ _ hhh
          obtain ⟨bi1, hci⟩ := charDigit_bounds _ _ hi
          rw [heq, ← h]
          unfold isoCanon
          dsimp only
          rw [charDigit_eq_digitChar _ _ ha, charDigit_eq_digitChar _ _ hb,
            charDigit_eq_digitChar _ _ hc, charDigit_eq_digitChar _ _ he,
            charDigit_eq_digitChar _ _ hf, charDigit_eq_digitChar _ _ hg,
            charDigit_eq_digitChar _ _ hhh, charDigit_eq_digitChar _ _ hi,
            hdash.1, hdash.2]
          have q1 : digitChar a = digitChar ((1000 * a + 100 * b + 10 * c + e) / 1000) :=
            (digitChar_eq_iff _ _).mpr (by omega)
          have q2 : digitChar b = digitChar ((1000 * a + 100 * b + 10 * c + e) / 100) :=
            (digitChar_eq_iff _ _).mpr (by omega)
          have q3 : digitChar c = digitChar ((1000 * a + 100 * b + 10 * c + e) / 10) :=
            (digitChar_eq_iff _ _).mpr (by omega)
          have q4 : digitChar e = digitChar (1000 * a + 100 * b + 10 * c + e) :=
            (digitChar_eq_iff _ _).mpr (by omega)
          have q5 : digitChar f = digitChar ((10 * f + g) / 10) :=
            (digitChar_eq_iff _ _).mpr (by omega)
          have q6 : digitChar g = digitChar (10 * f + g) :=
            (digitChar_eq_iff _ _).mpr (by omega)
          have q7 : digitChar hh = digitChar ((10 * hh + i) / 10) :=
            (digitChar_eq_iff _ _).mpr (by omega)
          have q8 : digitChar i = digitChar (10 * hh + i) :=
            (digitChar_eq_iff _ _).mpr (by omega)
          rw [q1, q2, q3, q4, q5, q6, q7, q8]
        · simp at h
      · simp at h
    · simp at h
  · simp at h

theorem consOutList_chain : ∀ (rows : List (ConsRow × MascRow)) (l : List ConsOut),
    consOutList rows = .ok l →
    List.Chain' (fun a b => chLe b.1.fecha.data a.1.fecha.data = true) rows →
    List.Chain' (fun a b => Date.le b.fecha a.fecha) l := by
  intro rows
  induction rows with
  | nil =>
    intro l h _
    simp only [consOutList] at h
    cases h
    simp
  | cons cm rest ih =>
    intro l h hc
    simp only [consOutList] at h
    cases hrow : consOutRow cm with
    | none => rw [hrow] at h; simp at h
    | some out =>
      rw [hrow] at h
      cases hrest : consOutList rest with
      | error e => rw [hrest] at h; simp at h
      | ok l2 =>
        rw [hrest] at h
        simp only [Except.ok.injEq] at h
        have htail := ih l2 hrest (List.Chain'.tail hc)
        rw [← h]
        cases rest with
        | nil =>
          simp only [consOutList] at hrest
          cases hrest
          simp
        | cons cm2 r2 =>
          simp only [consOutList] at hrest
          cases hrow2 : consOutRow cm2 with
          | none => rw [hrow2] at hrest; simp at hrest
          | some out2 =>
            rw [hrow2] at hrest
            cases hr2 : consOutList r2 with
            | error e => rw [hr2] at hrest; simp at hrest
            | ok l3 =>
              rw [hr2] at hrest
              simp only [Except.ok.injEq] at hrest
              rw [← hrest] at htail ⊢
              refine List.chain'_cons.mpr ⟨?_, htail⟩
              unfold consOutRow at hrow hrow2
              cases hp1 : parseIso cm.1.fecha with
              | none => rw [hp1] at hrow; simp at hrow
              | some dA =>
                cases hp2 : parseIso cm2.1.fecha with
                | none => rw [hp2] at hrow2; simp at hrow2
                | some dB =>
                  rw [hp1] at hrow
                  rw [hp2] at hrow2
                  simp only [Option.map, Option.some.injEq] at hrow hrow2
                  have hfa : out.fecha = dA := by rw [← hrow]
                  have hfb : out2.fecha = dB := by rw [← hrow2]
                  rw [hfa, hfb]
                  have hsh1 := parseIso_shape _ _ hp1
                  have hsh2 := parseIso_shape _ _ hp2
                  have hv1 := parseIso_validDate _ _ hp1
                  have hv2 := parseIso_validDate _ _ hp2
                  have hch := (List.chain'_cons.mp hc).1
                  rw [hsh1, hsh2] at hch
                  exact (chLe_isoCanon dB dA hv2 hv1).mp hch

theorem head?_mem {α : Type} (l : List α) (a : α) (h : l.head? = some a) : a ∈ l := by
  cases l with
  | nil => simp at h
  | cons x xs =>
    simp only [List.head?_cons, Option.some.injEq] at h
    rw [← h]
    exact List.mem_cons_self x xs

theorem head?_isSome_of_ne_nil {α : Type} (l : List α) (h : l ≠ []) :
    l.head?.isSome = true := by
  cases l with
  | nil => exact absurd rfl h
  | cons x xs => rfl

theorem get_propietario_by_id_spec (db : DB) (pid : Nat) (r : PropRow)
    (h : get_propietario_by_id db pid = some r) :
    r ∈ db.propietarios ∧ r.id = pid := by
  unfold get_propietario_by_id at h
  have hm := head?_mem _ _ h
  rw [List.mem_filter] at hm
  exact ⟨hm.1, by simpa using hm.2⟩

theorem get_propietario_by_nombre_none (db : DB) (pat : String)
    (h : get_propietario_by_nombre db pat = none) :
    ∀ r ∈ db.propietarios, sqlLike pat.data r.nombre.data = false := by
  unfold get_propietario_by_nombre at h
  rw [List.head?_eq_none_iff] at h
  intro r hr
  by_cases hs : sqlLike pat.data r.nombre.data = true
  · exact absurd (List.mem_filter.mpr ⟨hr, hs⟩) (by rw [h]; simp)
  · exact Bool.not_eq_true _ ▸ hs

theorem sqlLike_pct_of (ps s : List Char) (h : sqlLike ps s = true) :
    sqlLike ('%' :: ps) s = true := by
  rw [sqlLike_pct, h]
  rfl

theorem sqlLike_refl : ∀ (s : List Char), sqlLike s s = true := by
  intro s
  induction s with
  | nil => rfl
  | cons c t ih =>
    by_cases hc : c = '%'
    · subst hc
      rw [sqlLike_pct]
      have h2 : sqlLike ('%' :: t) t = true := sqlLike_pct_of t t ih
      simp [h2]
    · rw [sqlLike_cons_cons c t c t hc]
      by_cases hu : c = '_'
      · simp [hu, ih]
      · simp [hu, ih]

/-- Database holding the scenario of the spec: one owner (Ana, id 1)
with one pet (Rex, id 1) that has one visit (id 1). -/
def c1db : DB :=
  ⟨[⟨1, "Ana", "555-1111", "Calle 1"⟩],
   [⟨1, "Rex", "dog", "lab", 3, 1⟩],
   [⟨1, "2024-05-01", "checkup", "healthy", 1⟩],
   2, 2, 2⟩

/-- C1: evidence that the claimed cascade does not happen.  With one owner
(N = 1 pet, M = 1 visit) the claim demands `delete` return true and remove
1 + N + N·M = 3 rows, with `get_by_id` for the pet and the visit returning
NotFound afterwards.  The code returns true but removes only the owner
row: the pet row and the visit row are still in the store, and the visit
is still returned by `get_consulta_by_id` (the pet lookup alone reports
NotFound, and only because its owner join now fails).  The cause is that
the connection never runs `PRAGMA foreign_keys = ON`, so the declared
`ON DELETE CASCADE` clauses are never enforced. -/
theorem c1_delete_owner_does_not_cascade :
    (delete_propietario c1db 1).1 = true ∧
    (delete_propietario c1db 1).2.propietarios = [] ∧
    (delete_propietario c1db 1).2.mascotas = c1db.mascotas ∧
    (delete_propietario c1db 1).2.consultas = c1db.consultas ∧
    get_consulta_by_id (delete_propietario c1db 1).2 1 =
      .ok (some ⟨1, ⟨2024, 5, 1⟩, "checkup", "healthy", 1, "Rex"⟩) ∧
    get_mascota_by_id (delete_propietario c1db 1).2 1 = none :=
  ⟨rfl, rfl, rfl, rfl, rfl, rfl⟩

/-- C2: inserting an Owner whose name equals the name of an Owner already
in the store fails — the store reports the duplicate by returning no
record (hence no id is assigned) — and the database state, owner rows and
all, is exactly as before the call. -/
theorem c2_duplicate_insert_rejected (db : DB) (n t d : String)
    (hdup : ∃ r ∈ db.propietarios, r.nombre = n) :
    insert_propietario db n t d = (none, db) := by
  have hc : db.propietarios.any (fun r => r.nombre == n) = true := by
    rw [List.any_eq_true]
    obtain ⟨r, hr, he⟩ := hdup
    exact ⟨r, hr, by simp [he]⟩
  unfold insert_propietario
  rw [if_pos hc]

/-- Database with a single owner named Ana, for the C2 witness. -/
def c2db : DB := ⟨[⟨1, "Ana", "555-1111", "Calle 1"⟩], [], [], 2, 1, 1⟩

/-- Witness for C2 at a concrete duplicate insert. -/
theorem c2_duplicate_insert_rejected_witness :
    (∃ r ∈ c2db.propietarios, r.nombre = "Ana") ∧
      insert_propietario c2db "Ana" "300" "Calle 9" = (none, c2db) :=
  ⟨by decide, c2_duplicate_insert_rejected c2db "Ana" "300" "Calle 9" (by decide)⟩

/-- C4: the store's owner update is a returns-false no-op both when the
field mapping is empty (the generated SQL is malformed and the caught
error yields `False`) and when the mapping is non-empty but no row has the
given id (`rowcount` is 0); in both cases the state is unchanged. -/
theorem c4_update_empty_or_missing_noop (db : DB) (pid : Nat) (u : PropUpdate)
    (h : u.isEmpty = true ∨ ¬ ∃ r ∈ db.propietarios, r.id = pid) :
    update_propietario db pid u = (false, db) := by
  unfold update_propietario
  rcases h with h | h
  · rw [if_pos h]
  · have hany : (db.propietarios.any (fun r => r.id == pid)) = false := by
      rw [← Bool.not_eq_true, List.any_eq_true]
      intro hex
      obtain ⟨r, hr, hbeq⟩ := hex
      exact h ⟨r, hr, by simpa using hbeq⟩
    by_cases he : u.isEmpty = true
    · rw [if_pos he]
    · rw [if_neg he]
      have hcon : propNameConflict db pid u = false := by
        unfold propNameConflict
        cases hn : u.nombre with
        | none => rfl
        | some nm => rw [hany]; rfl
      rw [hcon]
      simp only [Bool.false_eq_true, if_false]
      have hmap : db.propietarios.map
          (fun r => if r.id == pid then applyPropUpdate u r else r) =
            db.propietarios := by
        conv_rhs => rw [← List.map_id db.propietarios]
        apply List.map_congr_left
        intro r hr
        rw [if_neg]
        · rfl
        · simp only [beq_iff_eq]
          intro he2
          exact h ⟨r, hr, he2⟩
      rw [hany, hmap]

/-- Witness for C4: both the empty-mapping case and the missing-id case at
concrete inputs. -/
theorem c4_update_empty_or_missing_noop_witness :
    ((⟨none, none, none⟩ : PropUpdate).isEmpty = true ∨
        ¬ ∃ r ∈ c2db.propietarios, r.id = 1) ∧
      update_propietario c2db 1 ⟨none, none, none⟩ = (false, c2db) ∧
      update_propietario c2db 7 ⟨some "Eva", none, none⟩ = (false, c2db) :=
  ⟨Or.inl rfl,
   c4_update_empty_or_missing_noop c2db 1 ⟨none, none, none⟩ (Or.inl rfl),
   c4_update_empty_or_missing_noop c2db 7 ⟨some "Eva", none, none⟩
     (Or.inr (by decide))⟩

/-- C9: a pet row whose `id_propietario` matches no owner row is invisible
to reads — `get_mascota_by_id` returns NotFound and `get_all_mascotas`
omits it — even though the row itself is still in the `mascotas` table,
because both queries inner-join against `propietarios`.  (The id
uniqueness hypothesis is the `PRIMARY KEY` guarantee of the table.) -/
theorem c9_orphan_pet_invisible (db : DB) (r : MascRow)
    (hr : r ∈ db.mascotas)
    (huniq : ∀ q ∈ db.mascotas, q.id = r.id → q = r)
    (horph : ∀ p ∈ db.propietarios, p.id ≠ r.id_propietario) :
    get_mascota_by_id db r.id = none ∧
      ∀ out ∈ get_all_mascotas db, out.id ≠ r.id := by
  have key : ∀ mp ∈ mascotaJoinRows db, mp.1.id ≠ r.id := by
    intro mp hmp
    unfold mascotaJoinRows at hmp
    simp only [List.mem_flatMap, List.mem_map, List.mem_filter] at hmp
    obtain ⟨m, hm, p, ⟨hp, hpid⟩, hpr⟩ := hmp
    rw [← hpr]
    intro heq
    have hmr : m = r := huniq m hm heq
    rw [hmr] at hpid
    exact horph p hp (by simpa using hpid)
  constructor
  · unfold get_mascota_by_id
    have hfil : (mascotaJoinRows db).filter (fun mp => mp.1.id == r.id) = [] := by
      rw [List.filter_eq_nil_iff]
      intro mp hmp
      simp only [beq_iff_eq]
      exact key mp hmp
    rw [hfil]
    rfl
  · intro out hout
    unfold get_all_mascotas at hout
    rw [List.mem_map] at hout
    obtain ⟨mp, hmp, hmk⟩ := hout
    rw [← hmk]
    exact key mp hmp

/-- Database with one orphan pet row (owner reference 7, no owners at
all), for the C9 witness. -/
def c9db : DB := ⟨[], [⟨1, "Rex", "dog", "lab", 3, 7⟩], [], 1, 2, 1⟩

/-- Witness for C9 at the concrete orphan pet. -/
theorem c9_orphan_pet_invisible_witness :
    ((⟨1, "Rex", "dog", "lab", 3, 7⟩ : MascRow) ∈ c9db.mascotas) ∧
      get_mascota_by_id c9db 1 = none ∧
      ∀ out ∈ get_all_mascotas c9db, out.id ≠ 1 := by
  refine ⟨by decide, ?_⟩
  exact c9_orphan_pet_invisible c9db ⟨1, "Rex", "dog", "lab", 3, 7⟩
    (by decide) (by decide) (by decide)

/-- C10: with the engine-fault path of the `try/except sqlite3.Error`
blocks made explicit, every faulted store operation returns the sentinel
of its result type — `none` for inserts and single reads, `false` for
updates and deletes, `[]` for listings — and the same values also arise on
fault-free paths (a duplicate-name insert, a missing id, a pet with no
visits), so the caller cannot tell a NotFound result, a duplicate-key
failure and an engine fault apart from the returned value alone. -/
theorem c10_fault_sentinels (db : DB) (n t d : String) (mid cid : Nat)
    (u : MascUpdate) :
    insert_propietarioF true db n t d = none ∧
    update_mascotaF true db mid u = false ∧
    get_consultas_by_mascota_idF true db mid = .ok [] ∧
    delete_consultaF true db cid = false ∧
    insert_propietarioF false ⟨[⟨1, n, t, d⟩], [], [], 2, 1, 1⟩ n t d =
      insert_propietarioF true db n t d ∧
    update_mascotaF false DB.empty mid u = update_mascotaF true db mid u ∧
    get_consultas_by_mascota_idF false DB.empty mid =
      get_consultas_by_mascota_idF true db mid ∧
    delete_consultaF false DB.empty cid = delete_consultaF true db cid := by
  refine ⟨rfl, rfl, rfl, rfl, ?_, ?_, rfl, rfl⟩
  · show (insert_propietario ⟨[⟨1, n, t, d⟩], [], [], 2, 1, 1⟩ n t d).1 = none
    unfold insert_propietario
    rw [if_pos (by simp)]
  · show (update_mascota DB.empty mid u).1 = false
    unfold update_mascota
    split
    · rfl
    · rfl

/-- Case-insensitive (ASCII) character-by-character equality of strings —
what remains of `LIKE` matching when the pattern contains no wildcard. -/
def foldEq : List Char → List Char → Bool
  | [], [] => true
  | a :: as, b :: bs => (foldChar a == foldChar b) && foldEq as bs
  | _, _ => false

/-- Whether a `LIKE` pattern is wildcard-free. -/
def noWildcards (p : List Char) : Bool :=
  p.all (fun c => !(c == '%') && !(c == '_'))

theorem sqlLike_noWild : ∀ (p s : List Char), noWildcards p = true →
    sqlLike p s = foldEq p s := by
  intro p
  induction p with
  | nil =>
    intro s _
    rw [sqlLike_nil]
    cases s <;> rfl
  | cons c cs ih =>
    intro s hw
    simp only [noWildcards, List.all_cons, Bool.and_eq_true, Bool.not_eq_true',
      beq_eq_false_iff_ne, ne_eq] at hw
    obtain ⟨⟨hcp, hcu⟩, hrest⟩ := hw
    have hrest2 : noWildcards cs = true := by
      unfold noWildcards
      rw [List.all_eq_true]
      intro x hx
      rw [List.all_eq_true] at hrest
      exact hrest x hx
    cases s with
    | nil => rw [sqlLike_cons_nil c cs hcp]; rfl
    | cons x t =>
      rw [sqlLike_cons_cons c cs x t hcp]
      rw [if_neg hcu]
      rw [ih t hrest2]
      rfl

/-- Database with a single owner named Ana, for the C5 counterexample. -/
def c5db : DB := ⟨[⟨1, "Ana", "300", "Calle 9"⟩], [], [], 2, 1, 1⟩

/-- C5 counterexample: the Owner lookup-by-name does not have exact-match
semantics.  The query string `"%"` is not equal — not even up to letter
case — to the only stored name `"Ana"`, yet the lookup returns that owner,
because the code runs `WHERE nombre LIKE ?` and `%` is a `LIKE`
wildcard. -/
theorem c5_lookup_not_exact_counterexample :
    get_propietario_by_nombre c5db "%" = some ⟨1, "Ana", "300", "Calle 9"⟩ ∧
      foldEq "%".data "Ana".data = false := by
  constructor
  · unfold get_propietario_by_nombre c5db
    have h : sqlLike "%".data "Ana".data = true := by decide
    simp [h]
  · decide

/-- C5 (amended): the Owner lookup-by-name runs SQL `LIKE`, where `%` and
`_` in the query act as wildcards and ASCII letters compare
case-insensitively; for a query string containing no wildcard character
the semantics are exact match up to ASCII letter case — the lookup returns
an owner if and only if some stored name is character-for-character equal
to the query up to ASCII case. -/
theorem c5_lookup_casefold_exact (db : DB) (nombre : String)
    (hw : noWildcards nombre.data = true) :
    (get_propietario_by_nombre db nombre).isSome = true ↔
      ∃ r ∈ db.propietarios, foldEq nombre.data r.nombre.data = true := by
  unfold get_propietario_by_nombre
  constructor
  · intro h
    obtain ⟨r, hr⟩ := Option.isSome_iff_exists.mp h
    have hm := head?_mem _ _ hr
    rw [List.mem_filter] at hm
    refine ⟨r, hm.1, ?_⟩
    rw [← sqlLike_noWild _ _ hw]
    exact hm.2
  · rintro ⟨r, hr, hf⟩
    apply head?_isSome_of_ne_nil
    intro hnil
    have hrf : r ∈ db.propietarios.filter
        (fun q => sqlLike nombre.data q.nombre.data) :=
      List.mem_filter.mpr ⟨hr, by rw [sqlLike_noWild _ _ hw]; exact hf⟩
    rw [hnil] at hrf
    simp at hrf

/-- Witness for the amended C5 at a concrete wildcard-free query. -/
theorem c5_lookup_casefold_exact_witness :
    noWildcards "ANA".data = true ∧
      ((get_propietario_by_nombre c5db "ANA").isSome = true ↔
        ∃ r ∈ c5db.propietarios, foldEq "ANA".data r.nombre.data = true) :=
  ⟨by decide, c5_lookup_casefold_exact c5db "ANA" (by decide)⟩

/-- C3: in the `actualizar_propietario` workflow, when the supplied new
name is exactly the name of an existing owner whose id differs from the
owner being updated, the whole database state — in particular every field
of the owner being updated — is unchanged afterwards: either the workflow
aborts at the name-collision check before touching the store, or (when the
`LIKE`-based check happens to resolve to the owner itself) the single
`UPDATE` statement fires the `UNIQUE` constraint and is rolled back whole,
so no update is applied in any case. -/
theorem c3_rename_collision_rejected (db : DB) (inp : ActPropInput)
    (prop p2 : PropRow)
    (hprop : get_propietario_by_id db inp.propId = some prop)
    (hne : inp.nombre ≠ "")
    (hp2m : p2 ∈ db.propietarios)
    (hp2n : p2.nombre = inp.nombre)
    (hp2id : p2.id ≠ prop.id) :
    actualizar_propietario db inp = db := by
  have hempty : ¬ ((⟨some inp.nombre, strOpt inp.telefono,
      strOpt inp.direccion⟩ : PropUpdate).isEmpty = true) := by
    simp [PropUpdate.isEmpty]
  unfold actualizar_propietario
  rw [hprop]
  dsimp only
  rw [if_pos hne]
  cases hex : get_propietario_by_nombre db inp.nombre with
  | none =>
    exfalso
    have hf := get_propietario_by_nombre_none db inp.nombre hex p2 hp2m
    rw [hp2n, sqlLike_refl] at hf
    simp at hf
  | some ex =>
    dsimp only
    by_cases hid : ex.id ≠ prop.id
    · rw [if_pos hid]
    · rw [if_neg hid]
      unfold actPropFinish
      dsimp only
      rw [if_neg hempty]
      have hprop2 := get_propietario_by_id_spec db inp.propId prop hprop
      unfold update_propietario
      rw [if_neg hempty]
      have hcon : propNameConflict db prop.id
          ⟨some inp.nombre, strOpt inp.telefono, strOpt inp.direccion⟩ = true := by
        unfold propNameConflict
        dsimp only
        rw [Bool.and_eq_true]
        constructor
        · rw [List.any_eq_true]
          exact ⟨prop, hprop2.1, by simp⟩
        · rw [List.any_eq_true]
          refine ⟨p2, hp2m, ?_⟩
          rw [Bool.and_eq_true]
          exact ⟨by simpa using hp2id, by simpa using hp2n⟩
      rw [if_pos hcon]

/-- Database with two owners (Ana id 1, Eva id 2), for the C3 witness. -/
def c3db : DB :=
  ⟨[⟨1, "Ana", "300", "Calle 1"⟩, ⟨2, "Eva", "301", "Calle 2"⟩], [], [], 3, 1, 1⟩

/-- Witness for C3: renaming owner 1 to the existing name of owner 2
leaves the database unchanged. -/
theorem c3_rename_collision_rejected_witness :
    get_propietario_by_id c3db 1 = some ⟨1, "Ana", "300", "Calle 1"⟩ ∧
      actualizar_propietario c3db ⟨1, "Eva", "", ""⟩ = c3db :=
  ⟨by decide,
   c3_rename_collision_rejected c3db ⟨1, "Eva", "", ""⟩
     ⟨1, "Ana", "300", "Calle 1"⟩ ⟨2, "Eva", "301", "Calle 2"⟩
     (by decide) (by decide) (by decide) (by decide) (by decide)⟩

/-- C6: for every pet id, whenever the visit listing returns a sequence
at all (stored dates that `strptime` cannot parse make it raise an
uncaught `ValueError` instead, modeled as `Except.error`), that sequence
is sorted in descending calendar-date order — for adjacent records the
earlier-positioned one carries the later-or-equal date.  `ORDER BY
c.fecha DESC` compares the stored text under `BINARY` collation, and on
the parseable (canonical `YYYY-MM-DD`) strings that order coincides with
calendar order. -/
theorem c6_visits_sorted_desc (db : DB) (mid : Nat) (l : List ConsOut)
    (h : get_consultas_by_mascota_id db mid = .ok l) :
    List.Chain' (fun a b => Date.le b.fecha a.fecha) l := by
  unfold get_consultas_by_mascota_id at h
  exact consOutList_chain _ l h (chain_sortFechaDesc _)

/-- Database with one pet and two visits on distinct dates, for the C6
witness. -/
def c6db : DB :=
  ⟨[], [⟨1, "Rex", "dog", "lab", 3, 1⟩],
   [⟨1, "2024-05-01", "checkup", "healthy", 1⟩,
    ⟨2, "2024-06-11", "vaccine", "done", 1⟩],
   1, 2, 3⟩

/-- Witness for C6 on a concrete two-visit history. -/
theorem c6_visits_sorted_desc_witness :
    get_consultas_by_mascota_id c6db 1 =
      .ok [⟨2, ⟨2024, 6, 11⟩, "vaccine", "done", 1, "Rex"⟩,
           ⟨1, ⟨2024, 5, 1⟩, "checkup", "healthy", 1, "Rex"⟩] ∧
      List.Chain' (fun a b => Date.le b.fecha a.fecha)
        [(⟨2, ⟨2024, 6, 11⟩, "vaccine", "done", 1, "Rex"⟩ : ConsOut),
         ⟨1, ⟨2024, 5, 1⟩, "checkup", "healthy", 1, "Rex"⟩] :=
  ⟨rfl, c6_visits_sorted_desc c6db 1 _ rfl⟩

/-- Database with one owner and one pet and no visits yet, for the C7
counterexample. -/
def c7baddb : DB :=
  ⟨[⟨1, "Ana", "300", "Calle 1"⟩], [⟨1, "Rex", "dog", "lab", 3, 1⟩], [], 2, 2, 1⟩

/-- C7 counterexample: the round-trip fails on the code for valid dates
with years below 1000.  The date 0042-05-01 is a valid calendar date a
user can type (`dd-mm-aaaa` input `01-05-0042`); inserting a visit with it
succeeds and commits the row — but `strftime("%Y-%m-%d")` stores the year
unpadded as `42-05-01`, which the read-back `strptime` (whose `%Y` needs
exactly four digits) rejects, so `get_consulta_by_id` raises an uncaught
`ValueError` instead of yielding a record with the inserted date. -/
theorem c7_roundtrip_counterexample :
    validDate ⟨42, 5, 1⟩ = true ∧
    (insert_consulta c7baddb ⟨42, 5, 1⟩ "checkup" "healthy" 1).2.consultas =
      [⟨1, "42-05-01", "checkup", "healthy", 1⟩] ∧
    get_consulta_by_id (insert_consulta c7baddb ⟨42, 5, 1⟩ "checkup" "healthy" 1).2
      (insert_consulta c7baddb ⟨42, 5, 1⟩ "checkup" "healthy" 1).1.id =
        .error () :=
  ⟨by decide, rfl, rfl⟩

/-- C7 (amended): round-trip of visit dates through storage holds for
every valid date with a four-digit year (1000 ≤ year ≤ 9999, the only
years `strftime` prints in the shape `strptime` reads back).  Inserting a
visit dated `dt` stores `dt.toIso`; reading the visit back under the id
the insert assigned yields a record whose date — parsed exactly as
`Consulta.__init__` parses the stored string — is `dt`.  The remaining
hypotheses are the referential situation of the workflow (the pet exists)
and the `AUTOINCREMENT` guarantee that existing visit ids are below the
next id. -/
theorem c7_visit_date_roundtrip (db : DB) (dt : Date) (motivo diag : String)
    (mid : Nat)
    (hd : validDate dt = true)
    (h4 : 1000 ≤ dt.y)
    (hm : ∃ m ∈ db.mascotas, m.id = mid)
    (hfresh : ∀ c ∈ db.consultas, c.id < db.nextCons) :
    ∃ out, get_consulta_by_id (insert_consulta db dt motivo diag mid).2
        (insert_consulta db dt motivo diag mid).1.id = .ok (some out) ∧
      out.fecha = dt := by
  obtain ⟨m, hmm, hmid⟩ := hm
  unfold insert_consulta get_consulta_by_id consultaJoinRows
  dsimp only
  rw [List.flatMap_append]
  rw [List.filter_append]
  have hold : ((db.consultas.flatMap fun c =>
      (db.mascotas.filter fun q => q.id == c.id_mascota).map fun q => (c, q)).filter
        fun cm => cm.1.id == db.nextCons) = [] := by
    rw [List.filter_eq_nil_iff]
    intro cm hcm
    rw [List.mem_flatMap] at hcm
    obtain ⟨c, hc, hcm2⟩ := hcm
    rw [List.mem_map] at hcm2
    obtain ⟨q, _, hq⟩ := hcm2
    have : cm.1 = c := by rw [← hq]
    rw [this]
    simp only [beq_iff_eq]
    exact Nat.ne_of_lt (hfresh c hc)
  rw [hold]
  rw [List.flatMap_cons, List.flatMap_nil, List.append_nil, List.nil_append]
  have hfil : ∀ x ∈ (db.mascotas.filter fun q =>
      q.id == (⟨db.nextCons, dt.toIso, motivo, diag, mid⟩ : ConsRow).id_mascota).map
        (fun q => ((⟨db.nextCons, dt.toIso, motivo, diag, mid⟩ : ConsRow), q)),
      (x.1.id == db.nextCons) = true := by
    intro x hx
    rw [List.mem_map] at hx
    obtain ⟨q, _, hq⟩ := hx
    rw [← hq]
    simp
  rw [List.filter_eq_self.mpr hfil]
  have hmem : m ∈ db.mascotas.filter fun q =>
      q.id == (⟨db.nextCons, dt.toIso, motivo, diag, mid⟩ : ConsRow).id_mascota := by
    rw [List.mem_filter]
    exact ⟨hmm, by simpa using hmid⟩
  cases hfl : db.mascotas.filter (fun q =>
      q.id == (⟨db.nextCons, dt.toIso, motivo, diag, mid⟩ : ConsRow).id_mascota) with
  | nil => rw [hfl] at hmem; simp at hmem
  | cons m0 ms =>
    refine ⟨⟨db.nextCons, dt, motivo, diag, mid, m0.nombre⟩, ?_, rfl⟩
    have hcr : consOutRow (⟨db.nextCons, dt.toIso, motivo, diag, mid⟩, m0) =
        some ⟨db.nextCons, dt, motivo, diag, mid, m0.nombre⟩ := by
      unfold consOutRow
      rw [parseIso_toIso dt hd h4]
      rfl
    simp only [List.map_cons, List.head?_cons]
    rw [hcr]

/-- Database with one owner and one pet and no visits yet, for the C7
witness. -/
def c7db : DB :=
  ⟨[⟨1, "Ana", "300", "Calle 1"⟩], [⟨1, "Rex", "dog", "lab", 3, 1⟩], [], 2, 2, 1⟩

/-- Witness for the amended C7 at a concrete four-digit-year date. -/
theorem c7_visit_date_roundtrip_witness :
    (validDate ⟨2024, 5, 1⟩ = true ∧ 1000 ≤ (⟨2024, 5, 1⟩ : Date).y) ∧
      ∃ out, get_consulta_by_id
          (insert_consulta c7db ⟨2024, 5, 1⟩ "checkup" "healthy" 1).2
          (insert_consulta c7db ⟨2024, 5, 1⟩ "checkup" "healthy" 1).1.id =
            .ok (some out) ∧
        out.fecha = ⟨2024, 5, 1⟩ :=
  ⟨⟨by decide, by decide⟩,
   c7_visit_date_roundtrip c7db ⟨2024, 5, 1⟩ "checkup" "healthy" 1
     (by decide) (by decide) (by decide) (by decide)⟩

theorem getPropOrCreate_mascotas (db : DB) (inp : RegMascInput) :
    (getPropietarioOrCreate db inp).2.mascotas = db.mascotas := by
  unfold getPropietarioOrCreate insert_propietario
  repeat' split
  all_goals rfl

theorem actProp_mascotas (db : DB) (inp : ActPropInput) :
    (actualizar_propietario db inp).mascotas = db.mascotas := by
  unfold actualizar_propietario actPropFinish update_propietario
  dsimp only
  repeat' split
  all_goals rfl

theorem actCons_mascotas (db : DB) (inp : ActConsInput) :
    (actualizar_consulta db inp).mascotas = db.mascotas := by
  unfold actualizar_consulta update_consulta
  dsimp only
  repeat' split
  all_goals rfl

theorem regCons_mascotas (db : DB) (mid : Nat) (fecha : Date)
    (motivo diagnostico : String) :
    (registrar_consulta db mid fecha motivo diagnostico).mascotas = db.mascotas := by
  unfold registrar_consulta insert_consulta
  repeat' split
  all_goals rfl

theorem delProp_mascotas (db : DB) (pid : Nat) (confirm : Bool) :
    (eliminar_propietario db pid confirm).mascotas = db.mascotas := by
  unfold eliminar_propietario delete_propietario
  repeat' split
  all_goals rfl

theorem delCons_mascotas (db : DB) (cid : Nat) (confirm : Bool) :
    (eliminar_consulta db cid confirm).mascotas = db.mascotas := by
  unfold eliminar_consulta delete_consulta
  repeat' split
  all_goals rfl

theorem update_mascota_edad_inv (db : DB) (mid : Nat) (u : MascUpdate)
    (hdb : ∀ m ∈ db.mascotas, 0 ≤ m.edad)
    (hu : ∀ e, u.edad = some e → 0 ≤ e) :
    ∀ m ∈ (update_mascota db mid u).2.mascotas, 0 ≤ m.edad := by
  intro m hm
  by_cases hE : u.isEmpty = true
  · unfold update_mascota at hm
    rw [if_pos hE] at hm
    exact hdb m hm
  · unfold update_mascota at hm
    rw [if_neg hE] at hm
    dsimp only at hm
    rw [List.mem_map] at hm
    obtain ⟨r, hr, hrm⟩ := hm
    rw [← hrm]
    by_cases hid : (r.id == mid) = true
    · rw [if_pos hid]
      unfold applyMascUpdate
      dsimp only
      cases he : u.edad with
      | none => simpa using hdb r hr
      | some e => simpa using hu e he
    · rw [if_neg hid]
      exact hdb r hr

theorem actMascEdad_ok (inp : ActMascInput) : ∀ e : Int,
    actMascEdad inp = some e → 0 ≤ e := by
  intro e he
  unfold actMascEdad at he
  split at he
  · rename_i e0
    split at he
    · simp at he
    · rename_i hneg
      simp only [Option.some.injEq] at he
      omega
  · simp at he

theorem actMascUpdate_edad (db : DB) (inp : ActMascInput) :
    (actMascUpdate db inp).edad = actMascEdad inp := by
  unfold actMascUpdate
  dsimp only
  repeat' split
  all_goals rfl

/-- C8: invariant — every pet row in any database state reachable through
the system's workflows has age ≥ 0.  Pet registration loops until the
typed age is non-negative, and the pet-update workflow drops a negative
(or unparseable) age entry before building the update mapping, so no
mutation path can write a negative `edad`. -/
theorem c8_no_negative_age (db : DB) (h : Reachable db) :
    ∀ m ∈ db.mascotas, 0 ≤ m.edad := by
  induction h with
  | init =>
    intro m hm
    simp [DB.empty] at hm
  | regMasc inp hr ih =>
    rename_i db0
    intro m hm
    unfold registrar_mascota at hm
    cases hf : inp.edadInputs.find? (fun e => decide (0 ≤ e)) with
    | none =>
      rw [hf] at hm
      exact ih m hm
    | some edad =>
      rw [hf] at hm
      dsimp only at hm
      cases hg : getPropietarioOrCreate db0 inp with
      | mk opt db1 =>
        rw [hg] at hm
        have hdb1 : db1.mascotas = db0.mascotas := by
          have hh := getPropOrCreate_mascotas db0 inp
          rw [hg] at hh
          exact hh
        cases opt with
        | none =>
          dsimp only at hm
          rw [hdb1] at hm
          exact ih m hm
        | some p =>
          dsimp only at hm
          unfold insert_mascota at hm
          dsimp only at hm
          rw [List.mem_append] at hm
          rcases hm with hm | hm
          · rw [hdb1] at hm
            exact ih m hm
          · simp only [List.mem_singleton] at hm
            rw [hm]
            have hfind := List.find?_some hf
            simpa using hfind
  | regCons mid fecha motivo diagnostico hr ih =>
    rename_i db0
    intro m hm
    rw [regCons_mascotas db0 mid fecha motivo diagnostico] at hm
    exact ih m hm
  | actProp inp hr ih =>
    rename_i db0
    intro m hm
    rw [actProp_mascotas db0 inp] at hm
    exact ih m hm
  | actMasc inp hr ih =>
    rename_i db0
    intro m hm
    unfold actualizar_mascota at hm
    cases hq : get_mascota_by_id db0 inp.mascId with
    | none =>
      rw [hq] at hm
      exact ih m hm
    | some masc =>
      rw [hq] at hm
      dsimp only at hm
      revert hm
      split
      · intro hm
        exact ih m hm
      · intro hm
        refine update_mascota_edad_inv db0 masc.id _ ih ?_ m hm
        intro e he
        rw [actMascUpdate_edad db0 inp] at he
        exact actMascEdad_ok inp e he
  | actCons inp hr ih =>
    rename_i db0
    intro m hm
    rw [actCons_mascotas db0 inp] at hm
    exact ih m hm
  | delProp pid confirm hr ih =>
    rename_i db0
    intro m hm
    rw [delProp_mascotas db0 pid confirm] at hm
    exact ih m hm
  | delMasc mid confirm hr ih =>
    rename_i db0
    intro m hm
    unfold eliminar_mascota at hm
    cases hq : get_mascota_by_id db0 mid with
    | none =>
      rw [hq] at hm
      exact ih m hm
    | some masc =>
      rw [hq] at hm
      dsimp only at hm
      revert hm
      split
      · unfold delete_mascota
        dsimp only
        intro hm
        rw [List.mem_filter] at hm
        exact ih m hm.1
      · intro hm
        exact ih m hm
  | delCons cid confirm hr ih =>
    rename_i db0
    intro m hm
    rw [delCons_mascotas db0 cid confirm] at hm
    exact ih m hm

/-- Witness for C8: one pet-registration step from the fresh database
yields a state whose every pet row has non-negative age. -/
theorem c8_no_negative_age_witness :
    (registrar_mascota DB.empty
        ⟨"Rex", "dog", "lab", [3], "Ana", true, "Ana", "300", "Calle 1"⟩).mascotas.all
      (fun m => decide (0 ≤ m.edad)) = true := by
  rw [List.all_eq_true]
  intro m hm
  simpa using c8_no_negative_age _ (Reachable.regMasc _ Reachable.init) m hm
